import Mathlib

/-!
Verification of the TalentGrid retrieval and ranking engine
(`backend/app/ai`): a shallow embedding in Lean 4 of the Segmenter
(`ingestion/chunker.py`), the Lexical Scorer and Hybrid Fusion
(`retrieval/hybrid_search.py`), the Retriever (`retrieval/retriever.py`)
and the Re-ranker fallback (`ranking/cross_encoder.py`), together with
theorems settling the specification claims about them.

Modelling conventions:
* Python floats are modelled as exact rationals (`ℚ`); the claims under
  study are about exact formulas such as `0.7·max + 0.3·mean`.
* `math.log` is modelled as a parameter `log : ℕ → ℚ` (it is only ever
  applied to `1 + count` with `count : ℕ`); the sole property of the real
  logarithm any result depends on is nonnegativity on arguments `≥ 2`.
* Python dicts that are built by insertion and then iterated are modelled
  as association lists in insertion order (CPython dicts preserve
  insertion order); `dict.get(k, d)` is first-match lookup with default.
* `uuid.uuid4()` is modelled as an externally supplied fresh identifier
  (a `String` parameter of the segmenter).
-/

namespace TalentGrid

/-! ### String primitives mirroring the Python string operations used -/

/-- Test for `\w` word characters as used by `re.findall(r"\w+", s)`
(ASCII letters, digits and underscore; the corpus is ASCII). -/
def isWordChar (c : Char) : Bool := c.isAlphanum || c = '_'

/-- Python `str.lower()` (ASCII inputs). -/
def pyLower (s : String) : String := ⟨s.data.map Char.toLower⟩

/-- Split a character list at every character satisfying `p`, keeping
empty runs (the semantics of `String.split`). -/
def splitChars (p : Char → Bool) : List Char → List (List Char)
  | [] => [[]]
  | c :: cs =>
    if p c then [] :: splitChars p cs
    else
      match splitChars p cs with
      | [] => [[c]]
      | h :: t => (c :: h) :: t

/-- Split a string at every character satisfying `p`. -/
def strSplit (s : String) (p : Char → Bool) : List String :=
  (splitChars p s.data).map (fun cs => ⟨cs⟩)

/-- Python `s.split()`: split on whitespace runs, discarding empties. -/
def pySplitWs (s : String) : List String :=
  (strSplit s Char.isWhitespace).filter (fun t => t ≠ "")

/-- Python `re.findall(r"\w+", s)`: maximal runs of word characters. -/
def findallWords (s : String) : List String :=
  (strSplit s (fun c => !isWordChar c)).filter (fun t => t ≠ "")

/-- Python `s.strip()`: drop leading and trailing whitespace. -/
def pyStrip (s : String) : String :=
  ⟨((s.data.dropWhile Char.isWhitespace).reverse.dropWhile
      Char.isWhitespace).reverse⟩

/-- Whether `pat` is a prefix of `hay` (character lists). -/
def leadsWith : List Char → List Char → Bool
  | _, [] => true
  | [], _ :: _ => false
  | h :: hs, p :: ps => h = p && leadsWith hs ps

/-- Python `pat in hay` substring test, on character lists. -/
def containsSub : List Char → List Char → Bool
  | [], pat => pat.isEmpty
  | h :: hs, pat => leadsWith (h :: hs) pat || containsSub hs pat

/-- Fuel-driven helper for `countOccs` (structural recursion on the
fuel so that the kernel can evaluate it; the fuel is initialized to the
haystack length, which bounds the number of steps). -/
def countOccsAux (pat : List Char) : Nat → List Char → Nat
  | 0, _ => 0
  | _ + 1, [] => 0
  | fuel + 1, h :: hs =>
    if pat ≠ [] ∧ leadsWith (h :: hs) pat then
      1 + countOccsAux pat fuel (hs.drop (pat.length - 1))
    else
      countOccsAux pat fuel hs

/-- Python `hay.count(pat)`: non-overlapping occurrence count (all call
sites pass a non-empty `pat`). -/
def countOccs (pat hay : List Char) : Nat :=
  countOccsAux pat hay.length hay

/-- Python `pat in hay` on strings. -/
def strContains (hay pat : String) : Bool := containsSub hay.data pat.data

/-- Python `hay.count(pat)` on strings. -/
def strCount (hay pat : String) : Nat := countOccs pat.data hay.data

/-- Python truthiness of an optional string (`None` and `""` are falsy). -/
def strTruthy : Option String → Bool
  | none => false
  | some s => s ≠ ""

/-! ### Static vocabulary tables of `HybridSearch` -/

/-- `HybridSearch.STOP_WORDS`. -/
def STOP_WORDS : List String :=
  ["a", "an", "the", "and", "or", "but", "in", "on", "at", "to", "for",
   "of", "with", "by", "from", "as", "is", "was", "are", "were", "been",
   "be", "have", "has", "had", "do", "does", "did", "will", "would",
   "could", "should", "may", "might", "must", "shall", "can", "need",
   "that", "this", "these", "those", "i", "you", "he", "she", "it",
   "we", "they", "what", "which", "who", "whom", "where", "when", "why",
   "how", "all", "each", "every", "both", "few", "more", "most", "other",
   "some", "such", "no", "nor", "not", "only", "own", "same", "so",
   "than", "too", "very", "just", "also", "now", "skills", "experience",
   "years", "work", "working", "job", "position", "role", "level",
   "looking", "seeking", "required", "requirements", "preferred"]

/-- `HybridSearch.TECH_SKILLS`. -/
def TECH_SKILLS : List String :=
  ["flutter", "dart", "react", "angular", "vue", "javascript", "typescript",
   "python", "java", "kotlin", "swift", "go", "rust", "ruby", "php",
   "node", "nodejs", "express", "django", "flask", "spring", "rails",
   "sql", "mysql", "postgresql", "mongodb", "redis", "elasticsearch",
   "aws", "azure", "gcp", "docker", "kubernetes", "terraform",
   "react native", "ios", "android", "mobile", "frontend", "backend",
   "fullstack", "devops", "mlops", "machine learning", "ml", "ai",
   "tensorflow", "pytorch", "pandas", "numpy", "scikit",
   "html", "css", "sass", "tailwind", "bootstrap",
   "git", "agile", "scrum", "jira", "figma", "sketch"]

/-- `HybridSearch.SYNONYMS` (bidirectional synonym table). -/
def SYNONYMS : List (String × List String) :=
  [("react", ["reactjs", "react.js"]),
   ("reactjs", ["react", "react.js"]),
   ("vue", ["vuejs", "vue.js"]),
   ("vuejs", ["vue", "vue.js"]),
   ("angular", ["angularjs", "angular.js"]),
   ("node", ["nodejs", "node.js"]),
   ("nodejs", ["node", "node.js"]),
   ("javascript", ["js", "ecmascript"]),
   ("js", ["javascript", "ecmascript"]),
   ("typescript", ["ts"]),
   ("ts", ["typescript"]),
   ("python", ["py"]),
   ("py", ["python"]),
   ("golang", ["go"]),
   ("go", ["golang"]),
   ("kubernetes", ["k8s"]),
   ("k8s", ["kubernetes"]),
   ("postgresql", ["postgres", "psql"]),
   ("postgres", ["postgresql", "psql"]),
   ("mongodb", ["mongo"]),
   ("mongo", ["mongodb"]),
   ("elasticsearch", ["elastic", "es"]),
   ("machine learning", ["ml", "machinelearning"]),
   ("ml", ["machine learning", "machinelearning"]),
   ("artificial intelligence", ["ai"]),
   ("ai", ["artificial intelligence"]),
   ("frontend", ["front-end", "front end"]),
   ("backend", ["back-end", "back end"]),
   ("fullstack", ["full-stack", "full stack"]),
   ("devops", ["dev-ops", "dev ops"]),
   ("react native", ["reactnative", "rn"]),
   ("nextjs", ["next.js", "next"]),
   ("nuxtjs", ["nuxt.js", "nuxt"])]

/-- `HybridSearch.TITLE_PATTERNS`. -/
def TITLE_PATTERNS : List (String × List String) :=
  [("developer", ["engineer", "dev", "programmer", "coder"]),
   ("engineer", ["developer", "dev"]),
   ("senior", ["sr", "sr.", "lead", "principal"]),
   ("junior", ["jr", "jr.", "entry"]),
   ("frontend", ["front-end", "front end", "ui"]),
   ("backend", ["back-end", "back end", "server"]),
   ("fullstack", ["full-stack", "full stack"]),
   ("data scientist", ["data science", "ml engineer"]),
   ("devops", ["sre", "site reliability", "platform engineer"]),
   ("mobile", ["ios", "android", "app developer"])]

/-- The local `title_keywords` list of `HybridSearch._get_title_boost`. -/
def title_keywords : List String :=
  ["developer", "engineer", "designer", "manager", "lead",
   "senior", "junior", "architect", "analyst", "scientist"]

/-- Lookup in an association list of string keys, defaulting to `[]`
(models `TABLE[key]` guarded by `key in TABLE`). -/
def tableLookup (table : List (String × List String)) (w : String) :
    List String :=
  match table.find? (fun p => p.1 == w) with
  | some p => p.2
  | none => []

/-! ### Query classification (`HybridSearch._is_skill_query`) -/

/-- `HybridSearch._is_skill_query`: whitespace-split the lower-cased
query, drop stop words, then test `len(words) <= 2` or membership of any
surviving word in `TECH_SKILLS`. -/
def is_skill_query (query : String) : Bool :=
  let words := (pySplitWs (pyLower query)).filter (fun w => w ∉ STOP_WORDS)
  if words.length ≤ 2 then true
  else words.any (fun w => w ∈ TECH_SKILLS)

/-- The dynamic fusion weights chosen in `HybridSearch.search`
(lines 264-276), as the pair `(semantic_weight, keyword_weight)`. -/
def fusionWeights (query : String) : ℚ × ℚ :=
  if is_skill_query query then (2/10, 8/10) else (6/10, 4/10)

/-- Keyword extraction of `HybridSearch.bm25_score` lines 180-184, which
realizes spec §4.2 step 1: `re.findall(r"\w+")` on the lower-cased query,
drop stop words and tokens shorter than 2 characters; if nothing
survives, fall back to all tokens of length ≥ 3. -/
def queryKeywords (query : String) : List String :=
  let all_words := findallWords (pyLower query)
  let keywords :=
    all_words.filter (fun w => w ∉ STOP_WORDS && w.length ≥ 2)
  if keywords.isEmpty then all_words.filter (fun w => w.length ≥ 3)
  else keywords

/-- The classification predicate that claim C1 asserts, written from the
spec's words: skill query iff, after tokenizing and stripping stop words
as in §4.2 step 1 (`queryKeywords`), at most 2 tokens survive or some
surviving token is in the domain vocabulary. -/
def specSkillQuery (query : String) : Bool :=
  (queryKeywords query).length ≤ 2 ||
    (queryKeywords query).any (fun w => w ∈ TECH_SKILLS)

/-- The token set the code actually classifies on: whitespace-split
lower-cased words with stop words removed (punctuation and one-character
tokens retained, no fallback). -/
def skillQueryWords (query : String) : List String :=
  (pySplitWs (pyLower query)).filter (fun w => w ∉ STOP_WORDS)

/-! ### Claim C1 -/

/-- Claim C1 (counterexample). The claim is false on the code in both of
its parts. (1) Its own example query "Looking for a senior backend
engineer with five years experience" is classified by
`HybridSearch._is_skill_query` as a SKILL query — the surviving word
"backend" is in `TECH_SKILLS` — so the weights are 0.8 lexical / 0.2
vector, not the claimed 0.6 vector / 0.4 lexical. (2) The code
classifies on whitespace-split words (punctuation attached), not on the
§4.2 step 1 tokens: for "python, experienced candidates wanted here" the
§4.2 tokens contain the domain word "python" (claim: skill query), but
the code sees only "python," and classifies it as a non-skill query. -/
theorem c1_counterexample :
    is_skill_query
        "Looking for a senior backend engineer with five years experience"
        = true
    ∧ fusionWeights
        "Looking for a senior backend engineer with five years experience"
        = (2/10, 8/10)
    ∧ is_skill_query "python, experienced candidates wanted here" = false
    ∧ specSkillQuery "python, experienced candidates wanted here" = true
    ∧ fusionWeights "python, experienced candidates wanted here"
        = (6/10, 4/10) := by
  refine ⟨by decide, ?_, by decide, by decide, ?_⟩
  · simp [fusionWeights,
      show is_skill_query
          "Looking for a senior backend engineer with five years experience"
          = true from by decide]
  · simp [fusionWeights,
      show is_skill_query "python, experienced candidates wanted here"
          = false from by decide]

/-- Claim C1 (amended): Hybrid Fusion classifies a query as a skill query
exactly when, after lower-casing, splitting on whitespace and removing
stop words (keeping punctuation and one-character tokens — not the §4.2
step 1 tokenization), at most 2 words survive or some surviving word is
in the domain-vocabulary set; skill queries fuse with weights 0.8
lexical / 0.2 vector and other queries with 0.6 vector / 0.4 lexical.
In particular "flutter" is a skill query, and so is "Looking for a
senior backend engineer with five years experience" (its surviving word
"backend" is domain vocabulary). -/
theorem c1_skill_query_characterization (q : String) :
    (is_skill_query q = true ↔
      (skillQueryWords q).length ≤ 2 ∨
        ∃ w ∈ skillQueryWords q, w ∈ TECH_SKILLS)
    ∧ fusionWeights q =
        (if is_skill_query q then ((2:ℚ)/10, (8:ℚ)/10)
         else ((6:ℚ)/10, (4:ℚ)/10))
    ∧ fusionWeights "flutter" = (2/10, 8/10)
    ∧ fusionWeights
        "Looking for a senior backend engineer with five years experience"
        = (2/10, 8/10) := by
  refine ⟨?_, ?_, ?_, ?_⟩
  · by_cases h : (skillQueryWords q).length ≤ 2 <;>
      simp [is_skill_query, skillQueryWords, h, List.any_eq_true,
        and_assoc] at *
  · simp [fusionWeights]
  · simp [fusionWeights, show is_skill_query "flutter" = true from by decide]
  · simp [fusionWeights,
      show is_skill_query
          "Looking for a senior backend engineer with five years experience"
          = true from by decide]

/-! ### The Lexical Scorer (`HybridSearch.bm25_score`) -/

/-- `HybridSearch._expand_with_synonyms`: the original keywords together
with all synonyms of any keyword, as a duplicate-free list (the Python
code returns `list(set(...))`; downstream only sums over the collection
and tests membership, so the set is modelled as a deduplicated list). -/
def expand_with_synonyms (keywords : List String) : List String :=
  (keywords ++
    (keywords.map (fun w => tableLookup SYNONYMS (pyLower w))).flatten).dedup

/-- One step of the role-keyword loop of `HybridSearch._get_title_boost`:
if the role keyword occurs in the query, add 0.15 when it occurs in the
text and a further 0.1 when one of its `TITLE_PATTERNS` synonyms does. -/
def roleKeywordStep (query_lower text_lower : String) (b : ℚ)
    (keyword : String) : ℚ :=
  if strContains query_lower keyword then
    let b1 := if strContains text_lower keyword then b + 15/100 else b
    if (tableLookup TITLE_PATTERNS keyword).any
        (fun syn => strContains text_lower syn)
    then b1 + 1/10 else b1
  else b

/-- One step of the tech-skill bigram loop of
`HybridSearch._get_title_boost`: for a consecutive query-word pair
`(word, next)` with `word` a tech skill and `next` a role keyword, add
0.2 when `word` occurs in the first 200 characters of the text. -/
def bigramStep (text_lower : String) (b : ℚ) (wp : String × String) : ℚ :=
  if wp.1 ∈ TECH_SKILLS ∧ wp.2 ∈ title_keywords ∧
      containsSub (text_lower.data.take 200) wp.1.data
  then b + 2/10 else b

/-- `HybridSearch._get_title_boost`: starts at 1.0; role-keyword boosts,
then tech-skill bigram boosts over consecutive query word pairs
(`enumerate` with the `i + 1 < len` guard); capped at 1.5. -/
def get_title_boost (query text : String) : ℚ :=
  let query_lower := pyLower query
  let text_lower := pyLower text
  let boost :=
    title_keywords.foldl (roleKeywordStep query_lower text_lower) 1
  let query_words := pySplitWs query_lower
  min ((query_words.zip query_words.tail).foldl (bigramStep text_lower)
        boost)
    (3/2)

/-- One step of the keyword-match loop of `HybridSearch.bm25_score`: a
keyword occurring `count > 0` times contributes `1 + log(1 + count)`,
×3 if it is a tech skill, ×0.8 if it is a synonym-only match (the
sequential `base *= 3` / `base *= 0.8` of the code is rendered as a
product of conditional factors). -/
def keywordStep (log : ℕ → ℚ) (keywords : List String)
    (text_lower : String) (s : ℚ) (word : String) : ℚ :=
  if 0 < strCount text_lower word then
    s + (1 + log (1 + strCount text_lower word))
        * (if word ∈ TECH_SKILLS then 3 else 1)
        * (if word ∉ keywords then 8/10 else 1)
  else s

/-- The raw (pre-normalization) score `bm25_score` computes for one
text: sum of the keyword-match contributions over the expanded keywords,
plus `2·|keywords|` on a verbatim phrase match, all multiplied by the
title boost. -/
def bm25_raw (log : ℕ → ℚ) (query : String)
    (keywords expanded : List String) (text : String) : ℚ :=
  let text_lower := pyLower text
  let score :=
    expanded.foldl (keywordStep log keywords text_lower) 0
  let score1 :=
    if strContains text_lower (pyLower query) then
      score + (keywords.length : ℚ) * 2
    else score
  score1 * get_title_boost query text

/-- The per-id raw scores of `HybridSearch.bm25_score` (the `scores`
dict before normalization), in batch order. -/
def bm25_raw_scores (log : ℕ → ℚ) (query : String)
    (documents : List (String × String)) : List (String × ℚ) :=
  let keywords := queryKeywords query
  let expanded := expand_with_synonyms keywords
  documents.map (fun d => (d.1, bm25_raw log query keywords expanded d.2))

/-- The `max_score` of `HybridSearch.bm25_score`: batch maximum of the
raw scores with floor 0.001. -/
def bm25_max (raw : List (String × ℚ)) : ℚ :=
  raw.foldl (fun m p => max m p.2) (1/1000)

/-- `HybridSearch.bm25_score` lines 170-229: raw scores normalized by
`max_score` (the guard `if max_score > 0` always holds since
`max_score ≥ 0.001`). -/
def bm25_score (log : ℕ → ℚ) (query : String)
    (documents : List (String × String)) : List (String × ℚ) :=
  let raw := bm25_raw_scores log query documents
  let max_score := bm25_max raw
  raw.map (fun p => (p.1, p.2 / max_score))

/-! ### Supporting lemmas for the Lexical Scorer -/

lemma foldl_ge_init {α : Type} (f : ℚ → α → ℚ) (h : ∀ b a, b ≤ f b a)
    (l : List α) : ∀ b : ℚ, b ≤ l.foldl f b := by
  induction l with
  | nil => intro b; exact le_refl b
  | cons a l ih => intro b; exact le_trans (h b a) (ih (f b a))

lemma foldl_max_le (c : ℚ) :
    ∀ (l : List (String × ℚ)) (init : ℚ), init ≤ c →
      (∀ p ∈ l, p.2 ≤ c) → l.foldl (fun m p => max m p.2) init ≤ c
  | [], _, h0, _ => h0
  | p :: l, init, h0, h => by
    exact foldl_max_le c l (max init p.2)
      (max_le h0 (h p (List.mem_cons_self p l)))
      (fun q hq => h q (List.mem_cons_of_mem p hq))

lemma mem_le_foldl_max :
    ∀ (l : List (String × ℚ)) (init : ℚ), ∀ p ∈ l,
      p.2 ≤ l.foldl (fun m q => max m q.2) init := by
  intro l
  induction l with
  | nil => intro init p hp; cases hp
  | cons a l ih =>
    intro init p hp
    rcases List.mem_cons.mp hp with h | h
    · subst h
      exact le_trans (le_max_right init p.2)
        (@foldl_ge_init (String × ℚ) (fun m q => max m q.2)
          (fun b q => le_max_left b q.2) l (max init p.2))
    · exact ih (max init a.2) p h

lemma le_roleKeywordStep (ql tl : String) (b : ℚ) (kw : String) :
    b ≤ roleKeywordStep ql tl b kw := by
  unfold roleKeywordStep
  split
  · split <;> split <;> linarith
  · exact le_refl b

lemma le_bigramStep (tl : String) (b : ℚ) (wp : String × String) :
    b ≤ bigramStep tl b wp := by
  unfold bigramStep
  split <;> linarith

lemma one_le_get_title_boost (query text : String) :
    1 ≤ get_title_boost query text := by
  unfold get_title_boost
  refine le_min ?_ (by norm_num)
  exact le_trans
    (@foldl_ge_init String _ (le_roleKeywordStep (pyLower query) (pyLower text))
      title_keywords 1)
    (@foldl_ge_init (String × String) _ (le_bigramStep (pyLower text)) _ _)

lemma le_keywordStep (log : ℕ → ℚ) (keywords : List String)
    (tl : String) (hlog : ∀ n : ℕ, 2 ≤ n → 0 ≤ log n)
    (s : ℚ) (word : String) :
    s ≤ keywordStep log keywords tl s word := by
  unfold keywordStep
  split
  · have hcount : 0 < strCount tl word := by assumption
    have hbase : (0:ℚ) ≤ 1 + log (1 + strCount tl word) := by
      have := hlog (1 + strCount tl word) (by omega)
      linarith
    have hprod : (0:ℚ) ≤ (1 + log (1 + strCount tl word))
        * (if word ∈ TECH_SKILLS then 3 else 1)
        * (if word ∉ keywords then 8/10 else 1) := by
      split <;> split <;> nlinarith
    linarith
  · exact le_refl s

lemma bm25_raw_nonneg (log : ℕ → ℚ) (query : String)
    (keywords expanded : List String) (text : String)
    (hlog : ∀ n : ℕ, 2 ≤ n → 0 ≤ log n) :
    0 ≤ bm25_raw log query keywords expanded text := by
  unfold bm25_raw
  have hfold : (0:ℚ) ≤
      expanded.foldl (keywordStep log keywords (pyLower text)) 0 :=
    @foldl_ge_init String _ (le_keywordStep log keywords (pyLower text) hlog)
      expanded 0
  have hboost := one_le_get_title_boost query text
  have hlen : (0:ℚ) ≤ (keywords.length : ℚ) := by positivity
  dsimp only
  split <;> nlinarith

lemma bm25_raw_scores_nonneg (log : ℕ → ℚ) (query : String)
    (documents : List (String × String))
    (hlog : ∀ n : ℕ, 2 ≤ n → 0 ≤ log n) :
    ∀ p ∈ bm25_raw_scores log query documents, 0 ≤ p.2 := by
  intro p hp
  unfold bm25_raw_scores at hp
  rcases List.mem_map.mp hp with ⟨d, _, rfl⟩
  exact bm25_raw_nonneg log query _ _ d.2 hlog

lemma bm25_max_pos (raw : List (String × ℚ)) : 0 < bm25_max raw :=
  lt_of_lt_of_le (by norm_num)
    (@foldl_ge_init (String × ℚ) (fun m q => max m q.2)
      (fun b q => le_max_left b q.2) raw (1/1000))

lemma le_bm25_max (raw : List (String × ℚ)) :
    ∀ p ∈ raw, p.2 ≤ bm25_max raw :=
  mem_le_foldl_max raw (1/1000)

/-! ### Claim C3 -/

/-- Claim C3 (counterexample): it is not the case that (for any model of
`math.log` that is nonnegative on arguments ≥ 2) an id whose raw score
is maximal in the batch always receives normalized score 1.0. In the
batch `{"d1": "zzz"}` for query "python", no keyword matches, so the
single id — which trivially has the highest raw match count and the
highest raw score — has raw score 0 and receives `0 / 0.001 = 0`,
not 1.0. -/
theorem c3_counterexample :
    ¬ ∀ log : ℕ → ℚ, (∀ n : ℕ, 2 ≤ n → 0 ≤ log n) →
      ∀ (q : String) (docs : List (String × String)) (p : String × ℚ),
        p ∈ bm25_raw_scores log q docs →
        (∀ p' ∈ bm25_raw_scores log q docs, p'.2 ≤ p.2) →
        (p.1, (1:ℚ)) ∈ bm25_score log q docs := by
  intro h
  have hk : queryKeywords "python" = ["python"] := by decide
  have he : expand_with_synonyms ["python"] = ["python", "py"] := by decide
  have hc1 : strCount (pyLower "zzz") "python" = 0 := by decide
  have hc2 : strCount (pyLower "zzz") "py" = 0 := by decide
  have hph : strContains (pyLower "zzz") (pyLower "python") = false := by
    decide
  have hraw : bm25_raw_scores (fun _ => 0) "python" [("d1", "zzz")]
      = [("d1", 0)] := by
    simp [bm25_raw_scores, hk, he, bm25_raw, keywordStep, hc1, hc2, hph]
  have := h (fun _ => 0) (fun _ _ => le_refl 0) "python" [("d1", "zzz")]
    ("d1", 0) (by rw [hraw]; exact List.mem_singleton.mpr rfl)
    (by rw [hraw]; rintro p' hp'; rw [List.mem_singleton.mp hp'])
  rw [show bm25_score (fun _ => 0) "python" [("d1", "zzz")]
      = [("d1", 0)] from by norm_num [bm25_score, hraw, bm25_max]] at this
  have h10 : (1:ℚ) = 0 := congrArg Prod.snd (List.mem_singleton.mp this)
  norm_num at h10

/-- Claim C3 (amended): for every query and batch, the Lexical Scorer
normalizes the per-id raw scores by the batch maximum with minimum
denominator 0.001; every returned score is in [0,1]; ids with raw score
0 receive 0; and an id whose raw score is maximal in the batch receives
exactly 1.0 PROVIDED its raw score is at least 0.001 (with an all-zero
batch the maximum-scoring id receives 0, not 1). Stated for any model
`log` of `math.log` that is nonnegative on arguments ≥ 2. -/
theorem c3_lexical_scores_normalized (log : ℕ → ℚ) (query : String)
    (documents : List (String × String))
    (hlog : ∀ n : ℕ, 2 ≤ n → 0 ≤ log n) :
    bm25_score log query documents =
      (bm25_raw_scores log query documents).map
        (fun p =>
          (p.1, p.2 / bm25_max (bm25_raw_scores log query documents)))
    ∧ (∀ p ∈ bm25_score log query documents, 0 ≤ p.2 ∧ p.2 ≤ 1)
    ∧ (∀ p ∈ bm25_raw_scores log query documents, p.2 = 0 →
        (p.1, (0:ℚ)) ∈ bm25_score log query documents)
    ∧ (∀ p ∈ bm25_raw_scores log query documents,
        (∀ p' ∈ bm25_raw_scores log query documents, p'.2 ≤ p.2) →
        1/1000 ≤ p.2 →
        (p.1, (1:ℚ)) ∈ bm25_score log query documents) := by
  refine ⟨rfl, ?_, ?_, ?_⟩
  · intro p hp
    unfold bm25_score at hp
    rcases List.mem_map.mp hp with ⟨q, hq, rfl⟩
    have h0 := bm25_raw_scores_nonneg log query documents hlog q hq
    have hmax := le_bm25_max _ q hq
    have hpos := bm25_max_pos (bm25_raw_scores log query documents)
    constructor
    · positivity
    · exact div_le_one_of_le₀ hmax (le_of_lt hpos)
  · intro p hp h0
    unfold bm25_score
    refine List.mem_map.mpr ⟨p, hp, ?_⟩
    rw [h0, zero_div]
  · intro p hp hmax hfloor
    have hmaxeq : bm25_max (bm25_raw_scores log query documents) = p.2 :=
      le_antisymm (foldl_max_le p.2 _ _ hfloor hmax) (le_bm25_max _ p hp)
    unfold bm25_score
    refine List.mem_map.mpr ⟨p, hp, ?_⟩
    rw [hmaxeq, div_self (by linarith : p.2 ≠ 0)]

/-- Claim C3 (witness): the amended theorem applied at the concrete
model `log = fun _ => 0`, query "python" and batch `{"d1": "python"}`. -/
theorem c3_witness :
    (∀ n : ℕ, 2 ≤ n → (0:ℚ) ≤ (fun _ : ℕ => (0:ℚ)) n)
    ∧ (∀ p ∈ bm25_score (fun _ => (0:ℚ)) "python" [("d1", "python")],
        0 ≤ p.2 ∧ p.2 ≤ 1) :=
  ⟨fun _ _ => le_refl 0,
   (c3_lexical_scores_normalized (fun _ => 0) "python" [("d1", "python")]
      (fun _ _ => le_refl 0)).2.1⟩

/-! ### Stable descending sort

Python's `sorted(l, key=key, reverse=True)` is a stable sort: the output
is descending in the key and elements with equal keys keep their original
relative order. It is modelled by insertion from the left, each element
being placed after every already-placed element of greater-or-equal
key. -/

/-- Insert `x` after every element whose key is `≥ key x`. -/
def insertDesc {α : Type} (key : α → ℚ) (x : α) : List α → List α
  | [] => [x]
  | y :: ys =>
    if key x ≤ key y then y :: insertDesc key x ys else x :: y :: ys

/-- Python `sorted(l, key=key, reverse=True)`. -/
def pySortDesc {α : Type} (key : α → ℚ) (l : List α) : List α :=
  l.foldl (fun acc x => insertDesc key x acc) []

lemma insertDesc_cons {α : Type} (key : α → ℚ) (x y : α) (ys : List α) :
    insertDesc key x (y :: ys) =
      if key x ≤ key y then y :: insertDesc key x ys else x :: y :: ys :=
  rfl

/-- The list is descending in the key. -/
def sortedDescBy {α : Type} (key : α → ℚ) : List α → Prop
  | [] => True
  | [_] => True
  | a :: b :: t => key b ≤ key a ∧ sortedDescBy key (b :: t)

lemma sortedDescBy_tail {α : Type} (key : α → ℚ) (a : α) (l : List α)
    (h : sortedDescBy key (a :: l)) : sortedDescBy key l := by
  cases l with
  | nil => trivial
  | cons b t => exact h.2

lemma sortedDescBy_head {α : Type} (key : α → ℚ) (a : α) (l : List α)
    (h : sortedDescBy key (a :: l)) : ∀ x ∈ a :: l, key x ≤ key a := by
  induction l generalizing a with
  | nil =>
    intro x hx
    rw [List.mem_singleton.mp hx]
  | cons b t ih =>
    intro x hx
    rcases List.mem_cons.mp hx with hx | hx
    · rw [hx]
    · exact le_trans (ih b h.2 x hx) h.1

lemma insertDesc_perm {α : Type} (key : α → ℚ) (x : α) (l : List α) :
    (insertDesc key x l).Perm (x :: l) := by
  induction l with
  | nil => exact List.Perm.refl _
  | cons y ys ih =>
    unfold insertDesc
    split
    · exact ((ih.cons y).trans (List.Perm.swap x y ys))
    · exact List.Perm.refl _

lemma pySortDesc_perm {α : Type} (key : α → ℚ) (l : List α) :
    (pySortDesc key l).Perm l := by
  have aux : ∀ (l acc : List α),
      (l.foldl (fun acc x => insertDesc key x acc) acc).Perm (acc ++ l) := by
    intro l
    induction l with
    | nil => intro acc; simp
    | cons x l ih =>
      intro acc
      refine (ih (insertDesc key x acc)).trans ?_
      refine (((insertDesc_perm key x acc).append_right l).trans ?_)
      exact List.perm_middle.symm.trans (List.Perm.refl _) |>.symm.symm
  simpa using aux l []

lemma sortedDescBy_insertDesc {α : Type} (key : α → ℚ) (x : α)
    (l : List α) (h : sortedDescBy key l) :
    sortedDescBy key (insertDesc key x l) := by
  induction l with
  | nil => trivial
  | cons y ys ih =>
    unfold insertDesc
    split
    · have hys := ih (sortedDescBy_tail key y ys h)
      have hxy : key x ≤ key y := by assumption
      cases ys with
      | nil => exact ⟨hxy, trivial⟩
      | cons z zs =>
        by_cases hxz : key x ≤ key z
        · have he : insertDesc key x (z :: zs) = z :: insertDesc key x zs := by
            rw [insertDesc_cons, if_pos hxz]
          rw [he] at hys ⊢
          exact ⟨h.1, hys⟩
        · have he : insertDesc key x (z :: zs) = x :: z :: zs := by
            rw [insertDesc_cons, if_neg hxz]
          rw [he]
          exact ⟨hxy, le_of_not_le hxz, h.2⟩
    · have hxy : key y ≤ key x := le_of_not_le (by assumption)
      exact ⟨hxy, h⟩

lemma sortedDescBy_pySortDesc {α : Type} (key : α → ℚ) (l : List α) :
    sortedDescBy key (pySortDesc key l) := by
  have aux : ∀ (l acc : List α), sortedDescBy key acc →
      sortedDescBy key (l.foldl (fun acc x => insertDesc key x acc) acc) := by
    intro l
    induction l with
    | nil => intro acc h; exact h
    | cons x l ih =>
      intro acc h
      exact ih _ (sortedDescBy_insertDesc key x acc h)
  exact aux l [] trivial

lemma filter_insertDesc_ne {α : Type} (key : α → ℚ) (x : α) (l : List α)
    (k : ℚ) (hk : key x ≠ k) :
    (insertDesc key x l).filter (fun a => decide (key a = k)) =
      l.filter (fun a => decide (key a = k)) := by
  induction l with
  | nil => simp [insertDesc, hk]
  | cons y ys ih =>
    unfold insertDesc
    split
    · by_cases hy : key y = k <;> simp [List.filter, hy, ih]
    · simp [List.filter, hk]

lemma filter_insertDesc_eq {α : Type} (key : α → ℚ) (x : α) (l : List α)
    (h : sortedDescBy key l) :
    (insertDesc key x l).filter (fun a => decide (key a = key x)) =
      l.filter (fun a => decide (key a = key x)) ++ [x] := by
  induction l with
  | nil => simp [insertDesc]
  | cons y ys ih =>
    unfold insertDesc
    split
    · have hys := ih (sortedDescBy_tail key y ys h)
      by_cases hy : key y = key x <;> simp [List.filter, hy, hys]
    · have hlt : key y < key x := lt_of_not_le (by assumption)
      have hnil : (y :: ys).filter (fun a => decide (key a = key x)) = [] := by
        refine List.filter_eq_nil_iff.mpr ?_
        intro a ha
        have := sortedDescBy_head key y ys h a ha
        simp only [decide_eq_true_eq]
        intro hak
        rw [hak] at this
        exact absurd this (not_le_of_lt hlt)
      simp [List.filter_cons, hnil]

lemma filter_pySortDesc {α : Type} (key : α → ℚ) (l : List α) (k : ℚ) :
    (pySortDesc key l).filter (fun a => decide (key a = k)) =
      l.filter (fun a => decide (key a = k)) := by
  have aux : ∀ (l acc : List α), sortedDescBy key acc →
      (l.foldl (fun acc x => insertDesc key x acc) acc).filter
          (fun a => decide (key a = k)) =
        acc.filter (fun a => decide (key a = k)) ++
          l.filter (fun a => decide (key a = k)) := by
    intro l
    induction l with
    | nil => intro acc h; simp
    | cons x l ih =>
      intro acc h
      rw [List.foldl_cons,
        ih (insertDesc key x acc) (sortedDescBy_insertDesc key x acc h)]
      by_cases hx : key x = k
      · subst hx
        rw [filter_insertDesc_eq key x acc h]
        simp [List.filter]
      · rw [filter_insertDesc_ne key x acc k hx]
        simp [List.filter, hx]
  simpa using aux l [] trivial

/-! ### Hybrid search (`HybridSearch.search`) -/

/-- The result of one vector-index query: `collection.query` returns
parallel lists `ids[0]`, `documents[0]`, `distances[0]` (ids are unique
within one result). -/
structure VectorResults where
  ids : List String
  documents : List String
  distances : List ℚ

/-- `dict.get(key, 0)` on an association list with ℚ values. -/
def alistGetQ (l : List (String × ℚ)) (k : String) : ℚ :=
  match l.find? (fun p => p.1 == k) with
  | some p => p.2
  | none => 0

/-- `docs[doc_id]` lookup on the id→text association list (the retriever
only looks up ids that are present). -/
def alistGetStr (l : List (String × String)) (k : String) : String :=
  match l.find? (fun p => p.1 == k) with
  | some p => p.2
  | none => ""

/-- `HybridSearch.search` lines 231-295: run the vector query, convert
distances to similarities `1/(1 + d)`, score the returned texts with
`bm25_score`, fuse with the dynamic weights of `fusionWeights`, and
return the `(id, fused score)` list stably sorted descending together
with the id→text map. The vector store is a parameter (`Vec` the
embedding type, `F` the ChromaDB filter type); `original_query` mirrors
`self.original_query`. -/
def hybridSearch {Vec F : Type} (log : ℕ → ℚ)
    (store : Vec → Option F → ℕ → VectorResults) (query : Vec)
    (original_query : String) (filters : Option F) (k : ℕ) :
    List (String × ℚ) × List (String × String) :=
  let vr := store query filters k
  if vr.ids.isEmpty then ([], [])
  else
    let docs := vr.ids.zip vr.documents
    let vector_scores :=
      vr.ids.zip (vr.distances.map (fun d => 1 / (1 + d)))
    let keyword_scores := bm25_score log original_query docs
    let final_scores := docs.map (fun d =>
      (d.1,
        (fusionWeights original_query).1 * alistGetQ vector_scores d.1 +
          (fusionWeights original_query).2 * alistGetQ keyword_scores d.1))
    (pySortDesc (fun p => p.2) final_scores, docs)

/-! ### The Retriever (`Retriever.retrieve`) -/

/-- The caller-supplied UI filters relevant to pool sizing:
`ui_filters.get("languages")` and `ui_filters.get("location")` as sent
by the web layer. `none` at the outer level models an absent or falsy
(`None`/empty) dict. -/
structure UIFilters where
  languages : Option (List String)
  location : Option String

/-- `bool(ui_filters and (ui_filters.get("languages") or
ui_filters.get("location")))` of `Retriever.retrieve` lines 55-57
(Python truthiness: a missing key, `None`, an empty list and an empty
string are all falsy). -/
def has_sql_filters : Option UIFilters → Bool
  | none => false
  | some f =>
    (match f.languages with
     | none => false
     | some l => !l.isEmpty) ||
    (match f.location with
     | none => false
     | some s => s ≠ "")

/-- The fetch-pool size of `Retriever.retrieve` line 58:
`max(top_k * 3, 60) if has_sql_filters else max(top_k, 20)`. -/
def fetch_k (ui : Option UIFilters) (top_k : ℕ) : ℕ :=
  if has_sql_filters ui then max (top_k * 3) 60 else max top_k 20

/-- Steps 1-2 of the search phase of `Retriever.retrieve` lines 60-83:
the filtered search at pool `fetch_k` runs only when translated
ChromaDB filters exist (`if filters:`); whenever it produced no ranked
chunks — in particular when there are no ChromaDB filters at all — the
unfiltered fallback runs at pool `max(top_k, 20)`. -/
def retrieveSearch {Vec F : Type} (log : ℕ → ℚ)
    (store : Vec → Option F → ℕ → VectorResults) (query_vector : Vec)
    (clean_query : String) (filters : Option F) (ui : Option UIFilters)
    (top_k : ℕ) : List (String × ℚ) × List (String × String) :=
  let step1 :=
    match filters with
    | some f =>
      hybridSearch log store query_vector clean_query (some f)
        (fetch_k ui top_k)
    | none => ([], [])
  if step1.1.isEmpty then
    hybridSearch log store query_vector clean_query none (max top_k 20)
  else step1

/-- `doc_id.split("_")[0]` of `Retriever.retrieve` line 89. -/
def docIdOf (segment_id : String) : String :=
  match strSplit segment_id (fun c => c = '_') with
  | [] => ""
  | h :: _ => h

/-- One grouping step of `Retriever.retrieve` lines 88-96: append the
chunk score and text to this `cv_id`'s entry, creating the entry at the
end on first appearance (dict insertion order). -/
def addToGroup (acc : List (String × List ℚ × List String)) (cv : String)
    (score : ℚ) (text : String) : List (String × List ℚ × List String) :=
  if acc.any (fun e => e.1 == cv) then
    acc.map (fun e =>
      if e.1 == cv then (e.1, e.2.1 ++ [score], e.2.2 ++ [text]) else e)
  else acc ++ [(cv, [score], [text])]

/-- `Retriever.retrieve` lines 85-96: group the ranked chunks by
document id, tracking chunk scores and texts in ranked order. -/
def groupChunks (ranked : List (String × ℚ))
    (docs : List (String × String)) :
    List (String × List ℚ × List String) :=
  ranked.foldl
    (fun acc pr =>
      addToGroup acc (docIdOf pr.1) pr.2 (alistGetStr docs pr.1))
    []

/-- Python `max(l)` on a non-empty ℚ list (0 for `[]`, unreachable). -/
def listMax : List ℚ → ℚ
  | [] => 0
  | h :: t => t.foldl max h

/-- `sum(l) / len(l)`. -/
def listMean (l : List ℚ) : ℚ := l.sum / l.length

/-- `Retriever.retrieve` lines 101-112: the aggregated document score
`0.7 * best_score + 0.3 * avg_score` (0 for an empty score list — the
code's `if not chunk_scores` guard, dead in practice). -/
def aggScore (chunk_scores : List ℚ) : ℚ :=
  if chunk_scores.isEmpty then 0
  else 7/10 * listMax chunk_scores + 3/10 * listMean chunk_scores

/-- A candidate dict as built by `Retriever.retrieve` lines 114-126 and
consumed by `CrossEncoder.rank`; the optional `score` key is only ever
added by the re-ranker. -/
structure Candidate where
  id : String
  text : String
  retrieval_score : ℚ
  score : Option ℚ
deriving DecidableEq

/-- Python `sep.join(parts)`. -/
def strJoin (sep : String) (parts : List String) : String :=
  ⟨List.intercalate sep.data (parts.map String.data)⟩

/-- `Retriever.retrieve` lines 114-126: build the candidate list in
group (dict insertion) order — no sort is applied — with `text` the
space-join of the first 3 chunks (the chunks were appended in ranked
order). -/
def buildCandidates (groups : List (String × List ℚ × List String)) :
    List Candidate :=
  groups.map (fun g =>
    { id := g.1,
      text := strJoin " " (g.2.2.take 3),
      retrieval_score := aggScore g.2.1,
      score := none })

/-- The full retrieval pipeline of `Retriever.retrieve` after query
parsing and embedding: search phase, grouping, aggregation and
candidate building. -/
def retrieveCandidates {Vec F : Type} (log : ℕ → ℚ)
    (store : Vec → Option F → ℕ → VectorResults) (query_vector : Vec)
    (clean_query : String) (filters : Option F) (ui : Option UIFilters)
    (top_k : ℕ) : List Candidate :=
  let rd := retrieveSearch log store query_vector clean_query filters
    ui top_k
  buildCandidates (groupChunks rd.1 rd.2)

/-! ### Claim C9 -/

/-- Claim C9 (counterexample): when the UI filters contain a language
filter but no experience range, the translated ChromaDB filters are
empty, the filtered search is skipped entirely, and the pool size
actually requested from the vector index is `max(top_k, 20)` — not the
computed `max(3·top_k, 60)` the claim asserts. The store here encodes
the requested pool size into the returned id, and for `top_k = 5` the
returned document id is "20" (so the single request used pool 20, not
60). -/
theorem c9_counterexample :
    fetch_k (some ⟨some ["english"], none⟩) 5 = 60
    ∧ (retrieveSearch (fun _ => (0:ℚ))
        (fun (_ : Unit) (_ : Option Unit) (k : ℕ) =>
          VectorResults.mk [toString k] ["t"] [0])
        () "q" none (some ⟨some ["english"], none⟩) 5).2
      = [("20", "t")] := by
  constructor
  · decide
  · decide

/-- Claim C9 (amended): the COMPUTED fetch-pool size is
`max(3·top_k, 60)` exactly when the caller-supplied filters contain a
language or location filter, and `max(top_k, 20)` otherwise; this
computed size is the pool of the filtered vector search, which runs
only when a translated (experience-range) predicate exists. When no
such predicate exists, and whenever the filtered search comes back
empty, the request uses pool `max(top_k, 20)`. -/
theorem c9_fetch_pool (ui : Option UIFilters) (top_k : ℕ) :
    (has_sql_filters ui = true ↔
      ∃ f, ui = some f ∧
        ((∃ l, f.languages = some l ∧ l ≠ []) ∨
          (∃ s, f.location = some s ∧ s ≠ "")))
    ∧ fetch_k ui top_k =
        (if has_sql_filters ui then max (top_k * 3) 60 else max top_k 20)
    ∧ (∀ (Vec F : Type) (log : ℕ → ℚ)
        (store : Vec → Option F → ℕ → VectorResults) (qv : Vec)
        (q : String) (f : F),
        retrieveSearch log store qv q (some f) ui top_k =
          (if (hybridSearch log store qv q (some f)
                (fetch_k ui top_k)).1.isEmpty
            then hybridSearch log store qv q none (max top_k 20)
            else hybridSearch log store qv q (some f) (fetch_k ui top_k)))
    ∧ (∀ (Vec F : Type) (log : ℕ → ℚ)
        (store : Vec → Option F → ℕ → VectorResults) (qv : Vec)
        (q : String),
        retrieveSearch log store qv q (none : Option F) ui top_k =
          hybridSearch log store qv q none (max top_k 20)) := by
  refine ⟨?_, rfl, ?_, ?_⟩
  · cases ui with
    | none => simp [has_sql_filters]
    | some f =>
      cases f with
      | mk langs loc =>
        cases langs <;> cases loc <;>
          simp [has_sql_filters, List.isEmpty_iff]
  · intro Vec F log store qv q f
    rfl
  · intro Vec F log store qv q
    simp [retrieveSearch]

/-! ### Claim C5 -/

/-- Claim C5 (confirmed): if the filtered vector search yields zero
hits, the Retriever falls back to an unfiltered search at pool
`max(top_k, 20)` and returns exactly what the engine returns when
invoked directly with no filter at that pool size; if the fallback also
yields zero hits, the result is the valid empty outcome `([], [])`. -/
theorem c5_fallback_equivalence {Vec F : Type} (log : ℕ → ℚ)
    (store : Vec → Option F → ℕ → VectorResults) (qv : Vec) (q : String)
    (f : F) (ui : Option UIFilters) (top_k : ℕ)
    (hempty : (store qv (some f) (fetch_k ui top_k)).ids = []) :
    retrieveSearch log store qv q (some f) ui top_k =
      hybridSearch log store qv q none (max top_k 20)
    ∧ ((store qv none (max top_k 20)).ids = [] →
        retrieveSearch log store qv q (some f) ui top_k = ([], [])) := by
  have h1 : hybridSearch log store qv q (some f) (fetch_k ui top_k)
      = ([], []) := by
    simp [hybridSearch, hempty]
  constructor
  · simp [retrieveSearch, h1]
  · intro h2
    have h3 : hybridSearch log store qv q none (max top_k 20)
        = ([], []) := by
      simp [hybridSearch, h2]
    simp [retrieveSearch, h1, h3]

/-- Claim C5 (witness): the theorem applied at a concrete store that
returns no hits for any query. -/
theorem c5_witness :
    ((fun (_ : Unit) (_ : Option Unit) (_ : ℕ) =>
        VectorResults.mk [] [] []) () (some ()) (fetch_k none 5)).ids = []
    ∧ retrieveSearch (fun _ => (0:ℚ))
        (fun (_ : Unit) (_ : Option Unit) (_ : ℕ) =>
          VectorResults.mk [] [] [])
        () "q" (some ()) none 5 =
      hybridSearch (fun _ => (0:ℚ))
        (fun (_ : Unit) (_ : Option Unit) (_ : ℕ) =>
          VectorResults.mk [] [] [])
        () "q" none (max 5 20) :=
  ⟨rfl,
   (c5_fallback_equivalence (fun _ => (0:ℚ))
      (fun (_ : Unit) (_ : Option Unit) (_ : ℕ) =>
        VectorResults.mk [] [] [])
      () "q" () none 5 rfl).1⟩

/-! ### Supporting lemmas for aggregation -/

lemma listMax_step (h a : ℚ) (t : List ℚ) :
    listMax (h :: a :: t) = listMax (max h a :: t) := rfl

lemma listMax_mem : ∀ (t : List ℚ) (h : ℚ), listMax (h :: t) ∈ h :: t := by
  intro t
  induction t with
  | nil => intro h; simp [listMax]
  | cons a t ih =>
    intro h
    rw [listMax_step]
    rcases List.mem_cons.mp (ih (max h a)) with hm | hm
    · rcases max_choice h a with hc | hc
      · rw [hm, hc]
        exact List.mem_cons_self _ _
      · rw [hm, hc]
        exact List.mem_cons_of_mem _ (List.mem_cons_self _ _)
    · exact List.mem_cons_of_mem _ (List.mem_cons_of_mem _ hm)

lemma le_listMax : ∀ (t : List ℚ) (h x : ℚ), x ∈ h :: t →
    x ≤ listMax (h :: t) := by
  intro t
  induction t with
  | nil =>
    intro h x hx
    rw [List.mem_singleton.mp hx]
    simp [listMax]
  | cons a t ih =>
    intro h x hx
    rw [listMax_step]
    have haux : max h a ≤ listMax (max h a :: t) :=
      ih (max h a) (max h a) (List.mem_cons_self _ _)
    rcases List.mem_cons.mp hx with hm | hm
    · rw [hm]
      exact le_trans (le_max_left h a) haux
    · rcases List.mem_cons.mp hm with hm2 | hm2
      · rw [hm2]
        exact le_trans (le_max_right h a) haux
      · exact ih (max h a) x (List.mem_cons_of_mem _ hm2)

lemma sum_le_length_mul (l : List ℚ) (M : ℚ)
    (hb : ∀ x ∈ l, x ≤ M) : l.sum ≤ l.length * M := by
  induction l with
  | nil => simp
  | cons a l ih =>
    simp only [List.sum_cons, List.length_cons]
    have h1 : a ≤ M := hb a (List.mem_cons_self _ _)
    have h2 := ih (fun x hx => hb x (List.mem_cons_of_mem _ hx))
    push_cast
    linarith

lemma listMean_le_listMax (h : ℚ) (t : List ℚ) :
    listMean (h :: t) ≤ listMax (h :: t) := by
  have hsum := sum_le_length_mul (h :: t) (listMax (h :: t))
    (fun x hx => le_listMax t h x hx)
  have hlen : (0:ℚ) < ((h :: t).length : ℚ) := by
    simp only [List.length_cons]
    positivity
  rw [listMean, div_le_iff₀ hlen]
  linarith

/-! ### Claim C2 -/

/-- Claim C2 (confirmed): for every document whose segments carry the
non-empty fused chunk score list `S`, the Retriever's aggregated score
is `0.7 · max(S) + 0.3 · mean(S)`; stated as: the candidate builder
assigns `aggScore` of each group's chunk scores, `aggScore` of a
non-empty list equals the formula for the list's greatest element `M`,
and the concrete instance `[0.9, 0.3, 0.3] ↦ 0.78 = 39/50`. -/
theorem c2_aggregation_formula :
    (∀ groups, (buildCandidates groups).map (fun c => c.retrieval_score)
        = groups.map (fun g => aggScore g.2.1))
    ∧ (∀ (h : ℚ) (t : List ℚ) (M : ℚ), M ∈ h :: t →
        (∀ x ∈ h :: t, x ≤ M) →
        aggScore (h :: t) =
          7/10 * M + 3/10 * ((h :: t).sum / ((h :: t).length : ℚ)))
    ∧ aggScore [9/10, 3/10, 3/10] = 39/50 := by
  have hform : ∀ (h : ℚ) (t : List ℚ) (M : ℚ), M ∈ h :: t →
      (∀ x ∈ h :: t, x ≤ M) →
      aggScore (h :: t) =
        7/10 * M + 3/10 * ((h :: t).sum / ((h :: t).length : ℚ)) := by
    intro h t M hM hb
    have hmax : listMax (h :: t) = M :=
      le_antisymm (hb _ (listMax_mem t h)) (le_listMax t h M hM)
    simp [aggScore, listMean, hmax]
  refine ⟨?_, hform, ?_⟩
  · intro groups
    simp [buildCandidates, List.map_map]
  · have := hform (9/10) [3/10, 3/10] (9/10)
      (List.mem_cons_self _ _)
      (by
        intro x hx
        simp at hx
        rcases hx with rfl | rfl <;> norm_num)
    rw [this]
    norm_num

/-- Claim C2 (witness): the aggregation formula applied at the concrete
chunk scores `[0.9, 0.3, 0.3]` with greatest element `0.9`. -/
theorem c2_witness :
    (9:ℚ)/10 ∈ [(9:ℚ)/10, 3/10, 3/10]
    ∧ aggScore [(9:ℚ)/10, 3/10, 3/10] =
        7/10 * (9/10) +
          3/10 * (([(9:ℚ)/10, 3/10, 3/10]).sum /
            (([(9:ℚ)/10, 3/10, 3/10]).length : ℚ)) :=
  ⟨List.mem_cons_self _ _,
   c2_aggregation_formula.2.1 (9/10) [3/10, 3/10] (9/10)
     (List.mem_cons_self _ _)
     (by
       intro x hx
       simp at hx
       rcases hx with rfl | rfl <;> norm_num)⟩

/-! ### Claim C10 -/

/-- Claim C10 (confirmed): for a non-empty chunk score list the
aggregated score lies between the mean and the maximum (inclusive); in
particular it never exceeds the best fused chunk score, and it lies in
[0,1] whenever every chunk score does, without any explicit clamping. -/
theorem c10_aggregate_bounds (h : ℚ) (t : List ℚ) :
    listMean (h :: t) ≤ aggScore (h :: t)
    ∧ aggScore (h :: t) ≤ listMax (h :: t)
    ∧ ((∀ x ∈ h :: t, 0 ≤ x ∧ x ≤ 1) →
        0 ≤ aggScore (h :: t) ∧ aggScore (h :: t) ≤ 1) := by
  have hmm := listMean_le_listMax h t
  have hagg : aggScore (h :: t) =
      7/10 * listMax (h :: t) + 3/10 * listMean (h :: t) := by
    simp [aggScore]
  refine ⟨by rw [hagg]; linarith, by rw [hagg]; linarith, ?_⟩
  intro hb
  have hmaxmem := listMax_mem t h
  have hmax0 : 0 ≤ listMax (h :: t) := (hb _ hmaxmem).1
  have hmax1 : listMax (h :: t) ≤ 1 := (hb _ hmaxmem).2
  have hmean0 : 0 ≤ listMean (h :: t) := by
    rw [listMean]
    refine div_nonneg (List.sum_nonneg fun x hx => (hb x hx).1) ?_
    positivity
  constructor <;> rw [hagg] <;> linarith

/-- Claim C10 (witness): the bounds applied at the concrete chunk
scores `[0.9, 0.3, 0.3]`, whose entries all lie in [0,1]. -/
theorem c10_witness :
    listMean [(9:ℚ)/10, 3/10, 3/10] ≤ aggScore [(9:ℚ)/10, 3/10, 3/10]
    ∧ aggScore [(9:ℚ)/10, 3/10, 3/10] ≤ listMax [(9:ℚ)/10, 3/10, 3/10]
    ∧ (0 ≤ aggScore [(9:ℚ)/10, 3/10, 3/10]
        ∧ aggScore [(9:ℚ)/10, 3/10, 3/10] ≤ 1) :=
  ⟨(c10_aggregate_bounds (9/10) [3/10, 3/10]).1,
   (c10_aggregate_bounds (9/10) [3/10, 3/10]).2.1,
   (c10_aggregate_bounds (9/10) [3/10, 3/10]).2.2
     (by
       intro x hx
       simp at hx
       rcases hx with rfl | rfl <;> norm_num)⟩

/-! ### Claim C4 -/

/-- First-occurrence deduplication: the order in which Python dict keys
appear when the dict is built by insertion. -/
def firstDedup (l : List String) : List String :=
  l.foldl
    (fun acc x => if acc.any (fun y => y == x) then acc else acc ++ [x])
    []

lemma keys_addToGroup (acc : List (String × List ℚ × List String))
    (cv : String) (s : ℚ) (t : String) :
    (addToGroup acc cv s t).map (fun e => e.1) =
      (if (acc.map (fun e => e.1)).any (fun y => y == cv)
        then acc.map (fun e => e.1)
        else acc.map (fun e => e.1) ++ [cv]) := by
  unfold addToGroup
  have hany : (acc.map (fun e => e.1)).any (fun y => y == cv)
      = acc.any (fun e => e.1 == cv) := by
    induction acc with
    | nil => rfl
    | cons a l ih => simp [ih]
  by_cases h : acc.any (fun e => e.1 == cv)
  · rw [if_pos h, if_pos (by rw [hany]; exact h), List.map_map]
    congr 1
    funext e
    by_cases he : e.1 = cv <;> simp [he]
  · rw [if_neg h, if_neg (by rw [hany]; exact h), List.map_append]
    simp

lemma groupChunks_keys (docs : List (String × String)) :
    ∀ (ranked : List (String × ℚ))
      (acc : List (String × List ℚ × List String)),
      ((ranked.foldl
          (fun acc pr =>
            addToGroup acc (docIdOf pr.1) pr.2 (alistGetStr docs pr.1))
          acc).map (fun e => e.1)) =
        (ranked.map (fun pr => docIdOf pr.1)).foldl
          (fun ks x => if ks.any (fun y => y == x) then ks else ks ++ [x])
          (acc.map (fun e => e.1)) := by
  intro ranked
  induction ranked with
  | nil => intro acc; simp
  | cons pr ranked ih =>
    intro acc
    simp only [List.foldl_cons, List.map_cons]
    rw [ih, keys_addToGroup]

/-- The vector store of the C4 counterexample: three segments, two of
document "A" and one of document "B", with distances chosen so that the
fused chunk scores are 0.2, 0.2 and 0.01. -/
def exStoreC4 : Unit → Option Unit → ℕ → VectorResults :=
  fun _ _ _ =>
    VectorResults.mk ["A_skills", "B_profile", "A_profile"]
      ["ta", "tb", "tc"] [0, 0, 19]

/-- Claim C4 (counterexample): the candidate list `Retriever.retrieve`
returns is NOT sorted descending by aggregated score. With fused chunk
scores A_skills = B_profile = 0.2 and A_profile = 0.01, document "A"
appears first in the fused ranking but aggregates to
`0.7·0.2 + 0.3·0.105 = 0.1715 = 343/2000`, below document "B"'s `0.2`;
the returned order is [A, B] — ascending in aggregated score — because
the code never re-sorts after aggregation. -/
theorem c4_counterexample :
    (retrieveCandidates (fun _ => (0:ℚ)) exStoreC4 () "zzz" none none
        20).map (fun c => (c.id, c.retrieval_score))
      = [("A", 343/2000), ("B", 1/5)]
    ∧ ¬ sortedDescBy (fun c : Candidate => c.retrieval_score)
        (retrieveCandidates (fun _ => (0:ℚ)) exStoreC4 () "zzz" none
          none 20) := by
  have hk : queryKeywords "zzz" = ["zzz"] := by decide
  have he : expand_with_synonyms ["zzz"] = ["zzz"] := by decide
  have hsk : is_skill_query "zzz" = true := by decide
  have hc1 : strCount (pyLower "ta") "zzz" = 0 := by decide
  have hc2 : strCount (pyLower "tb") "zzz" = 0 := by decide
  have hc3 : strCount (pyLower "tc") "zzz" = 0 := by decide
  have hp1 : strContains (pyLower "ta") (pyLower "zzz") = false := by
    decide
  have hp2 : strContains (pyLower "tb") (pyLower "zzz") = false := by
    decide
  have hp3 : strContains (pyLower "tc") (pyLower "zzz") = false := by
    decide
  have hb : bm25_score (fun _ => (0:ℚ)) "zzz"
      [("A_skills", "ta"), ("B_profile", "tb"), ("A_profile", "tc")] =
      [("A_skills", 0), ("B_profile", 0), ("A_profile", 0)] := by
    simp [bm25_score, bm25_raw_scores, hk, he, bm25_raw, keywordStep,
      hc1, hc2, hc3, hp1, hp2, hp3]
  have hq1 : ("A_skills" == "A_skills") = true := by decide
  have hq2 : ("A_skills" == "B_profile") = false := by decide
  have hq3 : ("B_profile" == "B_profile") = true := by decide
  have hq4 : ("A_skills" == "A_profile") = false := by decide
  have hq5 : ("B_profile" == "A_profile") = false := by decide
  have hq6 : ("A_profile" == "A_profile") = true := by decide
  have hh : hybridSearch (fun _ => (0:ℚ)) exStoreC4 () "zzz" none 20 =
      ([("A_skills", 1/5), ("B_profile", 1/5), ("A_profile", 1/100)],
        [("A_skills", "ta"), ("B_profile", "tb"),
          ("A_profile", "tc")]) := by
    simp only [hybridSearch, exStoreC4, List.zip_cons_cons,
      List.zip_nil_right, List.zip_nil_left]
    rw [hb]
    norm_num [alistGetQ, List.find?, fusionWeights, hsk, pySortDesc,
      insertDesc, hq1, hq2, hq3, hq4, hq5, hq6]
  have hr : retrieveSearch (fun _ => (0:ℚ)) exStoreC4 () "zzz" none none
      20 =
      ([("A_skills", 1/5), ("B_profile", 1/5), ("A_profile", 1/100)],
        [("A_skills", "ta"), ("B_profile", "tb"),
          ("A_profile", "tc")]) := by
    simp [retrieveSearch, hh]
  have hd1 : docIdOf "A_skills" = "A" := by decide
  have hd2 : docIdOf "B_profile" = "B" := by decide
  have hd3 : docIdOf "A_profile" = "A" := by decide
  have ht1 : alistGetStr [("A_skills", "ta"), ("B_profile", "tb"),
      ("A_profile", "tc")] "A_skills" = "ta" := by decide
  have ht2 : alistGetStr [("A_skills", "ta"), ("B_profile", "tb"),
      ("A_profile", "tc")] "B_profile" = "tb" := by decide
  have ht3 : alistGetStr [("A_skills", "ta"), ("B_profile", "tb"),
      ("A_profile", "tc")] "A_profile" = "tc" := by decide
  have hg : groupChunks
      [("A_skills", (1:ℚ)/5), ("B_profile", 1/5), ("A_profile", 1/100)]
      [("A_skills", "ta"), ("B_profile", "tb"), ("A_profile", "tc")] =
      [("A", [1/5, 1/100], ["ta", "tc"]), ("B", [1/5], ["tb"])] := by
    simp [groupChunks, addToGroup, hd1, hd2, hd3, ht1, ht2, ht3]
  have hj1 : strJoin " " ["ta", "tc"] = "ta tc" := by decide
  have hj2 : strJoin " " ["tb"] = "tb" := by decide
  have hm1 : aggScore [(1:ℚ)/5, 1/100] = 343/2000 := by
    simp only [aggScore, listMax, listMean, List.isEmpty_cons,
      List.foldl_cons, List.foldl_nil, List.sum_cons, List.sum_nil,
      List.length_cons, List.length_nil]
    rw [max_eq_left (by norm_num : (1:ℚ)/100 ≤ 1/5)]
    norm_num
  have hm2 : aggScore [(1:ℚ)/5] = 1/5 := by
    simp only [aggScore, listMax, listMean, List.isEmpty_cons,
      List.foldl_nil, List.sum_cons, List.sum_nil, List.length_cons,
      List.length_nil]
    norm_num
  have htk1 : List.take 3 ["ta", "tc"] = ["ta", "tc"] := by decide
  have htk2 : List.take 3 ["tb"] = ["tb"] := by decide
  have hcand : retrieveCandidates (fun _ => (0:ℚ)) exStoreC4 () "zzz"
      none none 20 =
      [{ id := "A", text := "ta tc", retrieval_score := 343/2000,
         score := none },
       { id := "B", text := "tb", retrieval_score := 1/5,
         score := none }] := by
    simp only [retrieveCandidates]
    rw [hr]
    dsimp only
    rw [hg]
    simp only [buildCandidates, List.map_cons, List.map_nil]
    rw [htk1, htk2, hm1, hm2, hj1, hj2]
  constructor
  · rw [hcand]
    simp
  · rw [hcand]
    simp [sortedDescBy]
    norm_num

/-- Claim C4 (amended): the candidate list is returned in order of
first appearance of each document id in the fused (descending, stably
sorted) chunk ranking — dict insertion order — and is NOT re-sorted by
aggregated score; for a fixed query, corpus and store behavior the
output is fully determined (the pipeline is a pure function of its
inputs). -/
theorem c4_candidate_order (ranked : List (String × ℚ))
    (docs : List (String × String)) :
    (buildCandidates (groupChunks ranked docs)).map (fun c => c.id) =
      firstDedup (ranked.map (fun pr => docIdOf pr.1)) := by
  unfold buildCandidates groupChunks firstDedup
  rw [List.map_map]
  exact groupChunks_keys docs ranked []

/-! ### The re-ranker fallback (`CrossEncoder.rank`) -/

/-- The score-filling loop shared by the unavailable branch (lines
85-87) and the exception branch (lines 113-115) of `CrossEncoder.rank`:
every candidate without a `score` key gets
`candidate.get("retrieval_score", 0)` (our candidates always carry
`retrieval_score`). -/
def fillScores (candidates : List Candidate) : List Candidate :=
  candidates.map (fun c =>
    match c.score with
    | none => { c with score := some c.retrieval_score }
    | some _ => c)

/-- The sort key `x.get("score", 0)` of `CrossEncoder.rank`. -/
def effScore (c : Candidate) : ℚ := c.score.getD 0

/-- The degraded path of `CrossEncoder.rank`: returns an empty list
unchanged (line 79-80); otherwise fills missing scores and stably sorts
descending by score. The exception branch runs this on the unmutated
candidates because `client.rerank` raises before any score is
attached. -/
def rankFallback (candidates : List Candidate) : List Candidate :=
  if candidates.isEmpty then candidates
  else pySortDesc effScore (fillScores candidates)

lemma sortedDescBy_congr {α : Type} (k1 k2 : α → ℚ) :
    ∀ l : List α, (∀ x ∈ l, k1 x = k2 x) → sortedDescBy k1 l →
      sortedDescBy k2 l := by
  intro l
  induction l with
  | nil => intro _ _; trivial
  | cons a l ih =>
    cases l with
    | nil => intro _ _; trivial
    | cons b t =>
      intro hx h
      refine ⟨?_, ih (fun x hxm => hx x (List.mem_cons_of_mem _ hxm)) h.2⟩
      rw [← hx b (List.mem_cons_of_mem _ (List.mem_cons_self _ _)),
        ← hx a (List.mem_cons_self _ _)]
      exact h.1

/-! ### Claim C6 -/

/-- Claim C6 (confirmed): whenever the re-ranker is unavailable or the
external call raises, `rank` assigns every candidate lacking a `score`
field its pre-existing retrieval score and returns the list stably
sorted descending by score, without surfacing an error (the fallback is
a total function of the candidate list): concretely, on retriever
output (where no candidate carries a `score` yet) the result equals the
stable descending sort by score of the score-filled candidates, every
returned candidate's score is its retrieval score, the output is
descending both in score and in retrieval score, it is a permutation of
the (score-filled) input, and candidates of equal score keep their
original relative order. -/
theorem c6_rank_degraded (cs : List Candidate)
    (hall : ∀ c ∈ cs, c.score = none) :
    rankFallback cs =
      pySortDesc effScore
        (cs.map (fun c => { c with score := some c.retrieval_score }))
    ∧ (∀ c ∈ rankFallback cs, c.score = some c.retrieval_score)
    ∧ sortedDescBy effScore (rankFallback cs)
    ∧ sortedDescBy (fun c => c.retrieval_score) (rankFallback cs)
    ∧ (rankFallback cs).Perm
        (cs.map (fun c => { c with score := some c.retrieval_score }))
    ∧ (∀ k : ℚ,
        (rankFallback cs).filter (fun c => decide (effScore c = k)) =
          (cs.map (fun c =>
            { c with score := some c.retrieval_score })).filter
            (fun c => decide (effScore c = k))) := by
  have hfill : fillScores cs =
      cs.map (fun c => { c with score := some c.retrieval_score }) := by
    refine List.map_congr_left ?_
    intro c hc
    rw [hall c hc]
  have hrf : rankFallback cs =
      pySortDesc effScore
        (cs.map (fun c => { c with score := some c.retrieval_score })) := by
    cases cs with
    | nil => rfl
    | cons a l =>
      rw [rankFallback, if_neg (by simp), hfill]
  have hperm : (rankFallback cs).Perm
      (cs.map (fun c => { c with score := some c.retrieval_score })) := by
    rw [hrf]
    exact pySortDesc_perm _ _
  have hmem : ∀ c ∈ rankFallback cs, c.score = some c.retrieval_score := by
    intro c hc
    have := hperm.mem_iff.mp hc
    rcases List.mem_map.mp this with ⟨c', _, rfl⟩
    rfl
  have hsorted : sortedDescBy effScore (rankFallback cs) := by
    rw [hrf]
    exact sortedDescBy_pySortDesc _ _
  refine ⟨hrf, hmem, hsorted, ?_, hperm, ?_⟩
  · refine sortedDescBy_congr effScore _ (rankFallback cs) ?_ hsorted
    intro c hc
    rw [effScore, hmem c hc]
    rfl
  · intro k
    rw [hrf]
    exact filter_pySortDesc effScore _ k

/-- The concrete candidate list used to witness claim C6: no candidate
carries a `score`, and two candidates tie on retrieval score. -/
def c6Input : List Candidate :=
  [{ id := "a", text := "ta", retrieval_score := 1, score := none },
   { id := "b", text := "tb", retrieval_score := 2, score := none },
   { id := "c", text := "tc", retrieval_score := 1, score := none }]

/-- Claim C6 (witness): the degraded-path theorem applied to the
concrete list `c6Input`. -/
theorem c6_witness :
    (∀ c ∈ c6Input, c.score = none)
    ∧ sortedDescBy (fun c : Candidate => c.retrieval_score)
        (rankFallback c6Input)
    ∧ (rankFallback c6Input).Perm
        (c6Input.map (fun c =>
          { c with score := some c.retrieval_score })) :=
  ⟨by decide,
   (c6_rank_degraded c6Input (by decide)).2.2.2.1,
   (c6_rank_degraded c6Input (by decide)).2.2.2.2.1⟩

/-! ### The Segmenter (`CVChunker`) -/

/-- A scalar metadata value as stored by `_build_chunk`: a string, an
integer (`experience_years`), or Python `None`. -/
inductive MetaVal where
  | str (s : String)
  | int (n : Int)
  | null
deriving DecidableEq, BEq

/-- One entry of `cv_json["languages"]`. -/
structure LangEntry where
  name : Option String
  level : Option String
deriving DecidableEq

/-- One entry of `cv_json["experience"]`; `fromPeriod`/`toPeriod` model
the `'from'`/`'to'` keys. -/
structure ExpEntry where
  role : Option String
  organization : Option String
  fromPeriod : Option String
  toPeriod : Option String
  description : Option String
deriving DecidableEq

/-- One entry of `cv_json["education"]`. -/
structure EduEntry where
  degree : Option String
  field : Option String
  institution : Option String
  fromPeriod : Option String
  toPeriod : Option String
deriving DecidableEq

/-- The structured CV record `cv_json` with the keys `CVChunker.chunk`
reads; list-valued keys default to `[]` when absent
(`cv_json.get(key, [])`), the rest to `None`. -/
structure CVRecord where
  name : Option String
  location : Option String
  experience_years : Option Int
  title : Option String
  summary : Option String
  skills : List String
  experience : List ExpEntry
  education : List EduEntry
  languages : List LangEntry
  certifications : List String
  projects_or_work : List String
deriving DecidableEq

/-- f-string rendering of a possibly-missing string value: Python
prints `None` as the literal "None". -/
def pyShow : Option String → String
  | none => "None"
  | some s => s

/-- A string-or-None metadata value. -/
def optMeta : Option String → MetaVal
  | none => MetaVal.null
  | some s => MetaVal.str s

/-- A segment as produced by `CVChunker._build_chunk`. -/
structure Chunk where
  id : String
  text : String
  metadata : List (String × MetaVal)
deriving DecidableEq

/-- `CVChunker._build_chunk` lines 178-194. -/
def build_chunk (cv_id chunk_type text : String) (cv : CVRecord)
    (language_names : List String) : Chunk :=
  { id := cv_id ++ "_" ++ chunk_type,
    text := text,
    metadata :=
      [("cv_id", MetaVal.str cv_id),
       ("chunk_type", MetaVal.str chunk_type),
       ("name", optMeta cv.name),
       ("location", optMeta cv.location),
       ("experience_years",
         match cv.experience_years with
         | none => MetaVal.null
         | some n => MetaVal.int n),
       ("title", optMeta cv.title),
       ("languages",
         if language_names.isEmpty then MetaVal.null
         else MetaVal.str (strJoin ", " language_names))] }

/-- The truthy language names extracted at the top of
`CVChunker.chunk`. -/
def languageNames (cv : CVRecord) : List String :=
  cv.languages.filterMap (fun lang =>
    match lang.name with
    | some n => if n ≠ "" then some n else none
    | none => none)

/-- `CVChunker.chunk` lines 10-175; `uuid.uuid4()` is supplied
externally as `cv_id` (a fresh value on every call in the code). -/
def chunk (cv_id : String) (cv : CVRecord) : List Chunk :=
  let language_names := languageNames cv
  let profile_text :=
    (if strTruthy cv.title then "Job Title: " ++ pyShow cv.title ++ ". "
     else "") ++
    (if strTruthy cv.summary then "Summary: " ++ pyShow cv.summary
     else "")
  (if pyStrip profile_text ≠ ""
   then [build_chunk cv_id "profile" profile_text cv language_names]
   else []) ++
  (if cv.skills.isEmpty then []
   else [build_chunk cv_id "skills"
      ("Skills: " ++ strJoin ", " cv.skills) cv language_names]) ++
  cv.experience.enum.map (fun ie =>
    build_chunk cv_id ("experience_" ++ toString ie.1)
      ("Role: " ++ pyShow ie.2.role ++ ". Company: " ++
        pyShow ie.2.organization ++ ". Period: " ++
        pyShow ie.2.fromPeriod ++ " - " ++ pyShow ie.2.toPeriod ++
        ". Description: " ++ pyShow ie.2.description)
      cv language_names) ++
  cv.education.enum.map (fun ie =>
    build_chunk cv_id ("education_" ++ toString ie.1)
      ("Degree: " ++ pyShow ie.2.degree ++ ". Field: " ++
        pyShow ie.2.field ++ ". Institution: " ++
        pyShow ie.2.institution ++ ". Period: " ++
        pyShow ie.2.fromPeriod ++ " - " ++ pyShow ie.2.toPeriod)
      cv language_names) ++
  (if cv.languages.isEmpty then []
   else [build_chunk cv_id "languages"
      ("Languages: " ++ strJoin ", " (cv.languages.map (fun lang =>
        pyShow lang.name ++ " (" ++ pyShow lang.level ++ ")")))
      cv language_names]) ++
  (if cv.certifications.isEmpty then []
   else [build_chunk cv_id "certifications"
      ("Certifications: " ++ strJoin ", " cv.certifications)
      cv language_names]) ++
  cv.projects_or_work.enum.map (fun ip =>
    build_chunk cv_id ("project_" ++ toString ip.1)
      ("Project: " ++ ip.2) cv language_names)

/-- `pipeline.clean_metadata`: replace every `None` metadata value by
the empty string (the `isinstance(meta, dict)` guard always holds at
its call site). -/
def clean_metadata (meta : List (String × MetaVal)) :
    List (String × MetaVal) :=
  meta.map (fun p =>
    (p.1,
      match p.2 with
      | MetaVal.null => MetaVal.str ""
      | v => v))

/-- The metadata dicts `IngestionPipeline.ingest_one` upserts to the
vector store for one CV: `clean_metadata` applied to each chunk's
metadata. -/
def ingestMetadatas (cv_id : String) (cv : CVRecord) :
    List (List (String × MetaVal)) :=
  (chunk cv_id cv).map (fun c => clean_metadata c.metadata)

/-- The `segment_kind` a chunk carries in its metadata. -/
def chunkKind (c : Chunk) : String :=
  match c.metadata.find? (fun p => p.1 == "chunk_type") with
  | some p =>
    match p.2 with
    | MetaVal.str s => s
    | _ => ""
  | none => ""

/-- The concrete record used in the C7 and C8 counterexamples: it has a
title (so a profile segment exists) but no name. -/
def exRecord : CVRecord :=
  { name := none, location := none, experience_years := none,
    title := some "Dev", summary := none, skills := [],
    experience := [], education := [], languages := [],
    certifications := [], projects_or_work := [] }

lemma build_chunk_text (u k t : String) (cv : CVRecord)
    (ln : List String) : (build_chunk u k t cv ln).text = t := rfl

lemma build_chunk_id (u k t : String) (cv : CVRecord)
    (ln : List String) : (build_chunk u k t cv ln).id = u ++ "_" ++ k :=
  rfl

lemma chunkKind_build_chunk (u k t : String) (cv : CVRecord)
    (ln : List String) : chunkKind (build_chunk u k t cv ln) = k := by
  have h1 : (("cv_id" : String) == "chunk_type") = false := by decide
  simp [chunkKind, build_chunk, List.find?, h1]

lemma mem_ite_nil {α : Type} {P : Prop} [Decidable P] {c b : α}
    (h : c ∈ (if P then [b] else [])) : c = b := by
  by_cases hp : P
  · rw [if_pos hp] at h
    exact List.mem_singleton.mp h
  · rw [if_neg hp] at h
    cases h

lemma mem_nil_ite {α : Type} {P : Prop} [Decidable P] {c b : α}
    (h : c ∈ (if P then [] else [b])) : c = b := by
  by_cases hp : P
  · rw [if_pos hp] at h
    cases h
  · rw [if_neg hp] at h
    exact List.mem_singleton.mp h

/-- Every segment the Segmenter produces is a `build_chunk` of the same
call's `cv_id` and language names. -/
lemma chunk_mem (u : String) (cv : CVRecord) (c : Chunk)
    (hc : c ∈ chunk u cv) :
    ∃ k t, c = build_chunk u k t cv (languageNames cv) := by
  simp only [chunk, List.mem_append] at hc
  rcases hc with ((((((h | h) | h) | h) | h) | h) | h)
  · exact ⟨_, _, mem_ite_nil h⟩
  · exact ⟨_, _, mem_nil_ite h⟩
  · rcases List.mem_map.mp h with ⟨ie, _, rfl⟩
    exact ⟨_, _, rfl⟩
  · rcases List.mem_map.mp h with ⟨ie, _, rfl⟩
    exact ⟨_, _, rfl⟩
  · exact ⟨_, _, mem_nil_ite h⟩
  · exact ⟨_, _, mem_nil_ite h⟩
  · rcases List.mem_map.mp h with ⟨ip, _, rfl⟩
    exact ⟨_, _, rfl⟩

/-! ### Claim C7 -/

/-- Claim C7 (counterexample): segmenting is NOT a pure function of the
input record at the level of segment ids: `CVChunker.chunk` draws a
fresh `uuid.uuid4()` as `cv_id` on every call, so re-segmenting the
identical record yields byte-identical segment TEXTS but different
segment ids (modelled by two distinct fresh ids "u1" and "u2"). -/
theorem c7_counterexample :
    (chunk "u1" exRecord).map (fun c => c.text) =
      (chunk "u2" exRecord).map (fun c => c.text)
    ∧ (chunk "u1" exRecord).map (fun c => c.id) = ["u1_profile"]
    ∧ (chunk "u2" exRecord).map (fun c => c.id) = ["u2_profile"]
    ∧ (chunk "u1" exRecord).map (fun c => c.id) ≠
        (chunk "u2" exRecord).map (fun c => c.id) :=
  ⟨by decide, by decide, by decide, by decide⟩

/-- Claim C7 (amended): the segment texts (and kinds, in order) are a
pure function of the input record — re-segmenting the identical record
with any fresh document ids yields byte-identical texts — and each
segment's id is deterministically derived as
`document_id + "_" + segment_kind`, where `document_id` is the fresh
per-call id; ids are therefore NOT preserved across calls. -/
theorem c7_segment_purity (u1 u2 : String) (cv : CVRecord) :
    (chunk u1 cv).map (fun c => c.text) =
      (chunk u2 cv).map (fun c => c.text)
    ∧ (chunk u1 cv).map (fun c => chunkKind c) =
        (chunk u2 cv).map (fun c => chunkKind c)
    ∧ (chunk u1 cv).all (fun c => c.id == u1 ++ "_" ++ chunkKind c)
        = true := by
  refine ⟨?_, ?_, ?_⟩
  · simp [chunk, List.map_append, List.map_map,
      apply_ite (List.map (fun c : Chunk => c.text)), build_chunk_text,
      Function.comp_def]
  · simp [chunk, List.map_append, List.map_map,
      apply_ite (List.map (fun c : Chunk => chunkKind c)),
      chunkKind_build_chunk, Function.comp_def]
  · rw [List.all_eq_true]
    intro c hc
    rcases chunk_mem u1 cv c hc with ⟨k, t, rfl⟩
    simp [build_chunk_id, chunkKind_build_chunk]

/-! ### Claim C8 -/

/-- Claim C8 (counterexample): a segment CAN carry null metadata values
at the point it leaves the Segmenter: for a record with a title but no
name, the single (profile) segment's metadata contains
`("name", None)` — normalization to the empty string happens later, in
the ingestion pipeline's `clean_metadata`, not in the Segmenter. -/
theorem c8_counterexample :
    (chunk "u" exRecord).map (fun c =>
        c.metadata.any (fun p => p.2 == MetaVal.null)) = [true]
    ∧ (chunk "u" exRecord).map (fun c =>
        c.metadata.any (fun p => p.1 == "name" && p.2 == MetaVal.null))
      = [true] :=
  ⟨by decide, by decide⟩

lemma clean_metadata_no_null (meta : List (String × MetaVal)) :
    (clean_metadata meta).all (fun p => !(p.2 == MetaVal.null))
      = true := by
  induction meta with
  | nil => rfl
  | cons a l ih =>
    rcases a with ⟨key, v⟩
    cases v with
    | str s =>
      show ((key, MetaVal.str s) :: clean_metadata l).all
          (fun p => !(p.2 == MetaVal.null)) = true
      rw [List.all_cons, ih]
      rfl
    | int n =>
      show ((key, MetaVal.int n) :: clean_metadata l).all
          (fun p => !(p.2 == MetaVal.null)) = true
      rw [List.all_cons, ih]
      rfl
    | null =>
      show ((key, MetaVal.str "") :: clean_metadata l).all
          (fun p => !(p.2 == MetaVal.null)) = true
      rw [List.all_cons, ih]
      rfl

/-- Claim C8 (amended): segments may leave the Segmenter with null
metadata values (absent document-level fields are stored as `None`);
it is the ingestion pipeline that normalizes every null to the empty
string via `clean_metadata` before the segment reaches the index — the
metadata actually upserted for every segment of every record contains
no nulls. -/
theorem c8_metadata_cleaned (u : String) (cv : CVRecord) :
    (ingestMetadatas u cv).all (fun meta =>
      meta.all (fun p => !(p.2 == MetaVal.null))) = true := by
  rw [List.all_eq_true]
  intro meta hmeta
  rcases List.mem_map.mp hmeta with ⟨c, _, rfl⟩
  exact clean_metadata_no_null c.metadata

end TalentGrid
